import Mathlib

/-!
Verification development for the audio-playback orchestration module
"the-sound-of-silence" (Foundry VTT).  The JavaScript sources are embedded
shallowly: JS numbers are modelled by `ℚ` (or `ℝ` where the code computes
trigonometric / power curves), JS values stored in document flags by the
inductive `JSVal`, stateful registries by explicit record updates, and code
that can throw by `Except`.  Each section names the source file and lines it
embeds.
-/

namespace SoS

/-! ## A model of JSON-like JavaScript values (flag storage)

Flags on Foundry documents are JSON-like data.  `JSVal.undefined` represents the
JavaScript value `undefined` (an absent flag or property); numbers are
modelled by `ℚ` (the code never relies on float rounding for the claims at
hand, and `NaN` is represented by `Option.none` at conversion points). -/

inductive JSVal where
  | undefined
  | null
  | bool (b : Bool)
  | num (q : ℚ)
  | str (s : String)
  | arr (elems : List JSVal)
  | obj (fields : List (String × JSVal))
  deriving Repr

def JSVal.isUndefined : JSVal → Bool
  | .undefined => true
  | _ => false

def JSVal.isNullish : JSVal → Bool
  | .undefined => true
  | .null => true
  | _ => false

def JSVal.isArr : JSVal → Bool
  | .arr _ => true
  | _ => false

/-- JavaScript truthiness (`Boolean(v)`): `undefined`, `null`, `false`, `0`
and the empty string are falsy; arrays and objects are always truthy. -/
def JSVal.truthy : JSVal → Bool
  | .undefined => false
  | .null => false
  | .bool b => b
  | .num q => q != 0
  | .str s => s ≠ ""
  | .arr _ => true
  | .obj _ => true

/-- Property read `v[k]`.  Reading a property of `null` or `undefined`
throws a `TypeError`; reading an absent property of any other value
(including primitives, which are wrapped) yields `undefined`. -/
def JSVal.getProp : JSVal → String → Except String JSVal
  | .undefined, _ => .error "TypeError"
  | .null, _ => .error "TypeError"
  | .obj fs, k => .ok ((fs.lookup k).getD .undefined)
  | _, _ => .ok .undefined

/-- Total property read for values known not to be nullish (objects reached
after an explicit guard); primitives yield `undefined`. -/
def JSVal.getPropD : JSVal → String → JSVal
  | .obj fs, k => (fs.lookup k).getD .undefined
  | _, _ => .undefined

/-- Property write `v[k] = x`.  In strict mode (all these files are ES
modules) assigning a property on a primitive or on `null`/`undefined`
throws a `TypeError`.  Assigning on an array succeeds; a non-index property
attached to an array is invisible to the rest of this pipeline (the
validator discards arrays wholesale before reading named properties), so
the array is returned unchanged. -/
def JSVal.setProp : JSVal → String → JSVal → Except String JSVal
  | .obj fs, k, x =>
      .ok (.obj (if (fs.lookup k).isSome
        then fs.map (fun kv => if kv.1 = k then (k, x) else kv)
        else fs ++ [(k, x)]))
  | .arr xs, _, _ => .ok (.arr xs)
  | _, _, _ => .error "TypeError"

/-- Property deletion `delete v[k]` for object values; deleting a property
of a non-object wrapper is a no-op that does not throw. -/
def JSVal.deleteProp : JSVal → String → JSVal
  | .obj fs, k => .obj (fs.filter (fun kv => kv.1 ≠ k))
  | v, _ => v

def JSVal.deleteProps (v : JSVal) (ks : List String) : JSVal :=
  ks.foldl JSVal.deleteProp v

/-- `Object.values(v)`: field values of an object; the characters of a
string (its indexed own properties); `[]` for other wrapped primitives.
The call sites guard with truthiness, so `null`/`undefined` never reach
this function. -/
def jsObjectValues : JSVal → List JSVal
  | .obj fs => fs.map (·.2)
  | .str s => s.data.map (fun c => .str (String.mk [c]))
  | _ => []

/-- `foundry.utils.duplicate`, a JSON round-trip: `undefined`-valued object
fields are dropped and `undefined` array elements become `null`; all other
JSON-like data is copied unchanged. -/
def jsDuplicate : JSVal → JSVal
  | .undefined => .undefined
  | .null => .null
  | .bool b => .bool b
  | .num q => .num q
  | .str s => .str s
  | .arr xs => .arr (xs.attach.map fun x =>
      if x.1.isUndefined then .null else jsDuplicate x.1)
  | .obj fs => .obj (fs.attach.filterMap fun kv =>
      if kv.1.2.isUndefined then none else some (kv.1.1, jsDuplicate kv.1.2))
termination_by v => sizeOf v
decreasing_by
  · have := List.sizeOf_lt_of_mem x.2
    simp only [JSVal.arr.sizeOf_spec]
    omega
  · have h1 := List.sizeOf_lt_of_mem kv.2
    have h2 : sizeOf kv.1.2 < sizeOf kv.1 := by
      obtain ⟨a, b⟩ := kv.1
      simp
    simp only [JSVal.obj.sizeOf_spec]
    omega

/-! ## Number parsing (JavaScript built-ins used by `utils.js` / `flag-service.js`)

`parseInt(s, 10)` and `parseFloat(s)` read an optional sign followed by a
longest prefix of decimal digits (for `parseFloat`, with an optional
fractional part); trailing garbage is ignored, and if no digit is read the
result is `NaN`, modelled by `Option.none`.  (Exponent notation of
`parseFloat` is not modelled; it does not occur in time strings.) -/

def digitVal (c : Char) : Option ℕ :=
  if c.isDigit then some (c.toNat - '0'.toNat) else none

/-- Longest prefix of decimal digits: value, number of digits consumed,
and the rest of the input. -/
def takeDigits : List Char → ℕ → ℕ → ℕ × ℕ × List Char
  | [], acc, n => (acc, n, [])
  | c :: cs, acc, n =>
      match digitVal c with
      | some d => takeDigits cs (acc * 10 + d) (n + 1)
      | none => (acc, n, c :: cs)

/-- Optional leading sign; returns the sign as `1` or `-1` and the rest. -/
def takeSign : List Char → ℤ × List Char
  | '-' :: cs => (-1, cs)
  | '+' :: cs => (1, cs)
  | cs => (1, cs)

/-- Leading and trailing whitespace removal (JS `trim`), over the
character list of a string. -/
def trimChars (cs : List Char) : List Char :=
  ((cs.dropWhile Char.isWhitespace).reverse.dropWhile Char.isWhitespace).reverse

/-- `parseInt(s, 10)`; `none` models `NaN`. -/
def jsParseInt (s : String) : Option ℤ :=
  let cs := trimChars s.data
  let (sign, cs1) := takeSign cs
  let (v, n, _) := takeDigits cs1 0 0
  if n = 0 then none else some (sign * v)

/-- `parseFloat(s)`; `none` models `NaN`. -/
def jsParseFloat (s : String) : Option ℚ :=
  let cs := trimChars s.data
  let (sign, cs1) := takeSign cs
  let (ip, ni, cs2) := takeDigits cs1 0 0
  match cs2 with
  | '.' :: cs3 =>
      let (fp, nf, _) := takeDigits cs3 0 0
      if ni = 0 ∧ nf = 0 then none
      else some ((sign : ℚ) * ((ip : ℚ) + (fp : ℚ) / ((10 : ℚ) ^ nf)))
  | _ => if ni = 0 then none else some ((sign : ℚ) * (ip : ℚ))

/-- `Number(v)` type coercion; `none` models `NaN`.  A whole string must
parse (after trimming; the empty string is `0`); one-element arrays coerce
through their element, other arrays through their joined string form
(modelled: empty array is `0`, longer arrays are `NaN`); objects are
`NaN`. -/
def jsStringToNumber (s : String) : Option ℚ :=
  let cs0 := trimChars s.data
  if cs0 = [] then some 0
  else
    let (sign, cs1) := takeSign cs0
    let (ip, ni, cs2) := takeDigits cs1 0 0
    match cs2 with
    | [] => if ni = 0 then none else some ((sign : ℚ) * (ip : ℚ))
    | '.' :: cs3 =>
        let (fp, nf, rest) := takeDigits cs3 0 0
        if rest = [] ∧ ¬(ni = 0 ∧ nf = 0)
        then some ((sign : ℚ) * ((ip : ℚ) + (fp : ℚ) / ((10 : ℚ) ^ nf)))
        else none
    | _ => none

def jsToNumber : JSVal → Option ℚ
  | .undefined => none
  | .null => some 0
  | .bool b => some (if b then 1 else 0)
  | .num q => some q
  | .str s => jsStringToNumber s
  | .arr [] => some 0
  | .arr [x] =>
      match x with
      | .undefined => some 0
      | .null => some 0
      | .num q => some q
      | .str s => jsStringToNumber s
      | .bool _ => none
      | _ => none
  | .arr (_ :: _ :: _) => none
  | .obj _ => none

/-- `String(v)` for primitive values (used only for the legacy string
fields of the loop schema; rational printing stands in for JS number
printing). -/
def jsToString : JSVal → String
  | .undefined => "undefined"
  | .null => "null"
  | .bool b => if b then "true" else "false"
  | .num q => toString q
  | .str s => s
  | .arr _ => ""
  | .obj _ => "[object Object]"

/-! ## `utils.js` lines 192-210: `toSec` -/

/-- JS `s.split(":")` over the character list of a string. -/
def splitOnColon : List Char → List (List Char)
  | [] => [[]]
  | c :: cs =>
      let rest := splitOnColon cs
      if c = ':' then [] :: rest
      else
        match rest with
        | p :: ps => (c :: p) :: ps
        | [] => [[c]]

/-- Converts a `"MM:SS"` or `"MM:SS.mmm"` time string into seconds
(`utils.js` lines 192-210).  Non-strings and strings without exactly one
`:` yield `0`; the `|| 0` fallbacks turn failed parses (`NaN`) into `0`;
the final `Math.max(0, ·)` clamps the result to be non-negative. -/
def toSec (mmss : JSVal) : ℚ :=
  match mmss with
  | .str s =>
      match splitOnColon s.data with
      | [m, secondsPart] =>
          let minutes : ℤ := (jsParseInt (String.mk m)).getD 0
          let seconds : ℚ :=
            if secondsPart.contains '.'
            then (jsParseFloat (String.mk secondsPart)).getD 0
            else (((jsParseInt (String.mk secondsPart)).getD 0 : ℤ) : ℚ)
          max 0 ((minutes : ℚ) * 60 + seconds)
      | _ => 0
  | _ => 0

/-! ## `utils.js` lines 264-325: per-playlist action sequence numbers

`ACTION_SEQUENCES` maps a playlist id to `{ seq, timestamp }`; it is
modelled as a function from ids to an optional stored entry.  `Date.now()`
is passed in explicitly as `now`. -/

structure SeqEntry where
  seq : ℤ
  timestamp : ℤ
  deriving Repr, DecidableEq

def SeqMap : Type := ℕ → Option SeqEntry

def SeqMap.set (m : SeqMap) (id : ℕ) (e : SeqEntry) : SeqMap :=
  fun i => if i = id then some e else m i

/-- `getNextSequence(playlistId)` (`utils.js` lines 310-315). -/
def getNextSequence (m : SeqMap) (playlistId : ℕ) (now : ℤ) : ℤ × SeqMap :=
  let current := ((m playlistId).map SeqEntry.seq).getD 0
  let next := current + 1
  (next, m.set playlistId ⟨next, now⟩)

/-- `shouldProcessAction(playlistId, seq)` (`utils.js` lines 317-325):
drop (`false`) when `seq` does not exceed the last seen sequence for the
id, otherwise record `seq` and accept (`true`). -/
def shouldProcessAction (m : SeqMap) (playlistId : ℕ) (seq now : ℤ) :
    Bool × SeqMap :=
  let lastSeen := ((m playlistId).map SeqEntry.seq).getD 0
  if seq ≤ lastSeen then (false, m)
  else (true, m.set playlistId ⟨seq, now⟩)

/-! ## `audio-fader.js` (src/unnamed/part_000): fade curves

The curve-building code works on JS floats; it is embedded over `ℝ`
because the claims about it are trigonometric identities and tolerance
bounds.  `CURVE_RESOLUTION = 64`, so sample `i` sits at progress
`i / 63`. -/

def CURVE_RESOLUTION : ℕ := 64

/-- Progress of sample `i` in a 64-point curve: `i / (CURVE_RESOLUTION - 1)`. -/
noncomputable def sampleProgress (i : Fin CURVE_RESOLUTION) : ℝ :=
  (i : ℝ) / ((CURVE_RESOLUTION : ℝ) - 1)

/-- The epsilon floor used in place of `0` to avoid `log 0`
(`audio-fader.js` line 32). -/
noncomputable def fadeEPSILON : ℝ := 0.0001

/-- The loop body of `generateExponentialCurve` (`audio-fader.js` lines
40-46): `safeStart * ratio ^ progress`, clamped to `[0, 1]`.  The
non-finite input guards of lines 23-24 have no counterpart for real
inputs. -/
noncomputable def rawExpCurve (startVol targetVol : ℝ) (i : Fin CURVE_RESOLUTION) : ℝ :=
  let startVol' := max 0 (min 1 startVol)
  let targetVol' := max 0 (min 1 targetVol)
  let safeStart := max fadeEPSILON startVol'
  let safeTarget := max fadeEPSILON targetVol'
  let ratio := safeTarget / safeStart
  max 0 (min 1 (safeStart * ratio ^ (sampleProgress i)))

/-- `generateExponentialCurve(startVol, targetVol)` (`audio-fader.js`
lines 19-53): the loop of `rawExpCurve` followed by the exact-endpoint
overwrites `curve[0] = startVol` and `curve[63] = targetVol`, where
`startVol`/`targetVol` are the values already clamped to `[0, 1]` at
lines 27-28. -/
noncomputable def generateExponentialCurve (startVol targetVol : ℝ) :
    Fin CURVE_RESOLUTION → ℝ :=
  Function.update
    (Function.update (rawExpCurve startVol targetVol)
      ⟨0, by norm_num [CURVE_RESOLUTION]⟩ (max 0 (min 1 startVol)))
    ⟨63, by norm_num [CURVE_RESOLUTION]⟩ (max 0 (min 1 targetVol))

/-- Outgoing curve formula of `equalPowerCrossfade` (`audio-fader.js`
line 172): `startVolOut * Math.cos(progress * 0.5 * Math.PI)`, as a
function of the (real) progress. -/
noncomputable def equalPowerOut (startVolOut progress : ℝ) : ℝ :=
  startVolOut * Real.cos (progress * 0.5 * Real.pi)

/-- Incoming curve formula of `equalPowerCrossfade` (`audio-fader.js`
line 173): `targetVolIn * Math.sin(progress * 0.5 * Math.PI)`. -/
noncomputable def equalPowerIn (targetVolIn progress : ℝ) : ℝ :=
  targetVolIn * Real.sin (progress * 0.5 * Real.pi)

/-- The two 64-point curves built by `equalPowerCrossfade`
(`audio-fader.js` lines 167-174): the formulas sampled at
`progress = i / 63`. -/
noncomputable def equalPowerCrossfadeCurves (startVolOut targetVolIn : ℝ) :
    (Fin CURVE_RESOLUTION → ℝ) × (Fin CURVE_RESOLUTION → ℝ) :=
  (fun i => equalPowerOut startVolOut (sampleProgress i),
   fun i => equalPowerIn targetVolIn (sampleProgress i))

/-! ## `audio-fader.js` lines 79-132: `advancedFade` and `fadeOutAndStop`

These are straight-line effectful functions; they are embedded as pure
functions from the observed state of the sound to a trace of the actions
taken.  JS numbers are `ℚ` here. -/

/-- The observable state of a `Sound` as seen by `fadeOutAndStop`. -/
structure FadeSound where
  /-- Whether `sound.gain` is present. -/
  hasGain : Bool
  /-- `gain.value` at fade time; `none` models `NaN` read-back. -/
  gainValue : Option ℚ
  /-- The `sound.volume` property at fade time. -/
  volume : ℚ
  /-- `sound.volume` as observed after the `AudioTimeout.wait(ms)`. -/
  volumeAfterWait : ℚ
  /-- Whether the sound was destroyed, so that `stop()` throws. -/
  destroyed : Bool
  deriving Repr, DecidableEq

/-- What `advancedFade(sound, {targetVol, duration})` does
(`audio-fader.js` lines 79-110). -/
inductive AdvancedFadeAction where
  /-- `!sound?.gain`: return without any effect. -/
  | noGain
  /-- Non-finite or non-positive duration: `sound.volume = targetVol`. -/
  | instantSet (targetVol : ℚ)
  /-- Schedule the exponential curve from `startVol` to `targetVol`. -/
  | curve (startVol targetVol durationMs : ℚ)
  deriving Repr, DecidableEq

def advancedFade (sound : Option FadeSound) (targetVol duration : ℚ) :
    AdvancedFadeAction :=
  match sound with
  | none => .noGain
  | some s =>
      if !s.hasGain then .noGain
      else if duration ≤ 0 then .instantSet targetVol
      else
        let startVol := s.gainValue.getD s.volume
        .curve startVol targetVol duration

/-- Trace of one `fadeOutAndStop(sound, ms)` call. -/
structure FadeOutAndStopTrace where
  /-- The `advancedFade(sound, {targetVol: 0, duration: ms})` call, if the
  sound was non-null. -/
  fade : Option AdvancedFadeAction
  /-- The `AudioTimeout.wait(ms)` duration, if the sound was non-null. -/
  waitedMs : Option ℚ
  /-- Whether `sound.stop()` was called (inside the `try`). -/
  stopAttempted : Bool
  /-- Whether the `stop()` call completed without throwing. -/
  stopSucceeded : Bool
  deriving Repr, DecidableEq

/-- `fadeOutAndStop(sound, ms)` (`audio-fader.js` lines 118-132): fade to
`0`, wait `ms`, then call `stop()` only if the observed volume is at most
`0.01`, with the `try/catch` guarding a destroyed sound. -/
def fadeOutAndStop (sound : Option FadeSound) (ms : ℚ) : FadeOutAndStopTrace :=
  match sound with
  | none => ⟨none, none, false, false⟩
  | some s =>
      let fade := advancedFade (some s) 0 ms
      let stopA : Bool := s.volumeAfterWait ≤ 0.01
      ⟨some fade, some ms, stopA, stopA && !s.destroyed⟩

/-! ## `flag-service.js`: schema validation

`FlagSchemas` entries are mirrored by the `Schema` inductive, and the
`_validate` switch (`flag-service.js` lines 342-383) by `validate`.
Schema defaults are JSON data, so `deepClone` is the identity in this
model. -/

inductive Schema where
  | boolean (dflt : Bool)
  | number (dflt : ℚ) (min max : Option ℚ)
  | string (dflt : String) (enum : Option (List String))
  | array (dflt : List JSVal)
  | object (dflt : JSVal) (sub : Option (List (String × Schema)))

def Schema.defaultVal : Schema → JSVal
  | .boolean b => .bool b
  | .number q _ _ => .num q
  | .string s _ => .str s
  | .array xs => .arr xs
  | .object d _ => d

/-- `_validateNumber(value, defaultValue, min, max)` (`flag-service.js`
lines 330-336). -/
def _validateNumber (value : JSVal) (defaultValue : ℚ)
    (min? max? : Option ℚ) : ℚ :=
  match jsToNumber value with
  | none => defaultValue
  | some num =>
      match min? with
      | some m =>
          if num < m then m
          else
            match max? with
            | some M => if M < num then M else num
            | none => num
      | none =>
          match max? with
          | some M => if M < num then M else num
          | none => num

/-- `foundry.utils.mergeObject(original, other)` restricted to what
`_validate` exercises: sub-schemas in this module all have default `{}`,
so the merge of the validated default into the incoming object is the
incoming object itself; for a non-trivial object default the fields of
`other` override those of `original`. -/
def jsMergeObject : JSVal → JSVal → JSVal
  | .obj [], v => v
  | .obj fs, .obj gs =>
      .obj ((fs.filter (fun kv => (gs.lookup kv.1).isNone)) ++ gs)
  | _, v => v

mutual

/-- The `_validate(value, schema)` switch (`flag-service.js` lines
342-383). -/
def validate (value : JSVal) (schema : Schema) : JSVal :=
  if value.isNullish then schema.defaultVal
  else
    match schema with
    | .boolean dflt =>
        match value with
        | .bool b => .bool b
        | _ => .bool dflt
    | .number dflt min? max? =>
        match jsToNumber value with
        | none => .num dflt
        | some num =>
            match min? with
            | some m =>
                if num < m then .num m
                else
                  match max? with
                  | some M => if M < num then .num M else .num num
                  | none => .num num
            | none =>
                match max? with
                | some M => if M < num then .num M else .num num
                | none => .num num
    | .string dflt enum? =>
        let s := jsToString value
        match enum? with
        | some es => if s ∈ es then .str s else .str dflt
        | none => .str s
    | .array dflt =>
        match value with
        | .arr xs => .arr xs
        | _ => .arr dflt
    | .object dflt sub? =>
        match value with
        | .obj fs =>
            match sub? with
            | some sub =>
                let defaultObj := dflt
                let merged := jsMergeObject defaultObj (.obj fs)
                .obj (validateFields merged sub)
            | none => .obj fs
        | _ => dflt

def validateFields (merged : JSVal) : List (String × Schema) → List (String × JSVal)
  | [] => []
  | (k, sch) :: rest =>
      (k, validate (merged.getPropD k) sch) :: validateFields merged rest

end

/-- The `loopWithin` sub-schema (`flag-service.js` lines 31-46). -/
def loopWithinSchema : Schema :=
  .object (.obj []) (some
    [("enabled", .boolean false),
     ("active", .boolean true),
     ("startFromBeginning", .boolean true),
     ("segments", .array []),
     ("start", .string "00:00" none),
     ("end", .string "00:00" none),
     ("crossfadeMs", .number 1000 (some 0) none),
     ("skipCount", .number 0 (some 0) none),
     ("loopCount", .number 0 (some 0) none)])

/-- `_migrateLegacyLoopFlags(rawFlags)` (`flag-service.js` lines
389-417).  Strict-mode property assignment on a primitive throws, so the
result is an `Except`. -/
def _migrateLegacyLoopFlags (rawFlags : JSVal) : Except String JSVal := do
  let flags := jsDuplicate (if rawFlags.isNullish then .obj [] else rawFlags)
  let segments0 ← flags.getProp "segments"
  let segments1 :=
    if segments0.truthy && !segments0.isArr
    then JSVal.arr (jsObjectValues segments0)
    else segments0
  let endVal ← flags.getProp "end"
  let isLegacy : Bool :=
    (!segments1.isArr || (match segments1 with | .arr xs => xs.isEmpty | _ => false))
    && endVal.truthy
    && !(match endVal with | .str s => s = "00:00" | _ => false)
  let segments2 ←
    if isLegacy then do
      let startVal ← flags.getProp "start"
      let crossfadeMsVal ← flags.getProp "crossfadeMs"
      let loopCountVal ← flags.getProp "loopCount"
      pure (JSVal.arr [JSVal.obj
        [("start", if startVal.isNullish then .str "00:00" else startVal),
         ("end", endVal),
         ("crossfadeMs", if crossfadeMsVal.isNullish then .num 1000 else crossfadeMsVal),
         ("loopCount", if loopCountVal.isNullish then .num 0 else loopCountVal),
         ("skipToNext", .bool false)]])
    else pure segments1
  let flags2 ← flags.setProp "segments"
    (if segments2.truthy then segments2 else .arr [])
  pure (flags2.deleteProps ["start", "end", "crossfadeMs", "loopCount"])

/-- A validated loop segment as produced by `getLoopConfig`
(`flag-service.js` lines 228-242).  `end_` models the JS property `end`,
which is a reserved word in Lean. -/
structure LoopSegment where
  start : JSVal
  end_ : JSVal
  crossfadeMs : ℚ
  loopCount : ℚ
  skipToNext : Bool
  startSec : ℚ
  endSec : ℚ
  deriving Repr

/-- The body of the `segments.map` in `getLoopConfig` (`flag-service.js`
lines 228-242); throws a `TypeError` when `seg` is `null` (a property
read on `null`). -/
def validateSegmentEntry (seg : JSVal) : Except String LoopSegment := do
  let s ← seg.getProp "start"
  let e ← seg.getProp "end"
  let cf ← seg.getProp "crossfadeMs"
  let lc ← seg.getProp "loopCount"
  let sk ← seg.getProp "skipToNext"
  let start := if s.truthy then s else JSVal.str "00:00"
  let end_ := if e.truthy then e else JSVal.str "00:00"
  pure
    { start := start
      end_ := end_
      crossfadeMs := _validateNumber cf 1000 (some 0) none
      loopCount := _validateNumber lc 0 (some 0) none
      skipToNext := match sk with | .bool b => b | _ => false
      startSec := toSec start
      endSec := toSec end_ }

/-- The fully validated loop configuration returned by `getLoopConfig`. -/
structure LoopConfig where
  enabled : Bool
  active : Bool
  startFromBeginning : Bool
  segments : List LoopSegment
  deriving Repr

def jsAsBool (v : JSVal) : Bool :=
  match v with
  | .bool b => b
  | _ => false

def jsAsArr (v : JSVal) : List JSVal :=
  match v with
  | .arr xs => xs
  | _ => []

/-- `Flags.getLoopConfig(sound)` (`flag-service.js` lines 222-245), as a
function of the raw `loopWithin` flag value (`sound.getFlag(...)`); the
leading `?? {}` turns a missing or `null` flag into `{}`.  The boolean
and segment fields are read back out of the validated object; the schema
guarantees `enabled`/`active`/`startFromBeginning` are booleans and
`segments` is an array, so the typed extraction is exact. -/
def getLoopConfig (rawFlag : JSVal) : Except String LoopConfig := do
  let rawFlags := if rawFlag.isNullish then JSVal.obj [] else rawFlag
  let migrated ← _migrateLegacyLoopFlags rawFlags
  let validatedConfig := validate migrated loopWithinSchema
  let segsRaw := jsAsArr (validatedConfig.getPropD "segments")
  let segments ← segsRaw.mapM validateSegmentEntry
  pure
    { enabled := jsAsBool (validatedConfig.getPropD "enabled")
      active := jsAsBool (validatedConfig.getPropD "active")
      startFromBeginning := jsAsBool (validatedConfig.getPropD "startFromBeginning")
      segments := segments }

/-! ## `flag-service.js` lines 253-262: `getPlaybackMode` -/

structure PlaybackMode where
  crossfade : Bool
  silence : Bool
  loopPlaylist : Bool
  deriving Repr, DecidableEq

/-- `getPlaylistFlag(playlist, key)` for a Boolean-schema key: the raw
flag value validated against `{ type: Boolean, default: dflt }`. -/
def getPlaylistFlagBool (raw : JSVal) (dflt : Bool) : Bool :=
  jsAsBool (validate raw (.boolean dflt))

/-- `Flags.getPlaybackMode(playlist)` (`flag-service.js` lines 253-262)
as a function of the raw persisted `crossfade`, `silenceEnabled` and
`loopPlaylist` flag values: crossfade overrides silence. -/
def getPlaybackMode (rawCrossfade rawSilenceEnabled rawLoopPlaylist : JSVal) :
    PlaybackMode :=
  let crossfade := getPlaylistFlagBool rawCrossfade false
  let silence := getPlaylistFlagBool rawSilenceEnabled false
  let loopPlaylist := getPlaylistFlagBool rawLoopPlaylist false
  { crossfade := crossfade
    silence := if crossfade then false else silence
    loopPlaylist := loopPlaylist }

/-! ## `state-manager.js`: the runtime state registry

The WeakMaps of `StateManager` are modelled as functions from entity ids
(playlist ids for crossfade timers, play waiters and silence state; sound
ids for loopers) to optional entries.  Entities themselves are reduced to
the data the embedded functions consult. -/

/-- An active `LoopingSound` instance, as visible to the registry.
`looping-sound.js` is not part of the sources; per its lifecycle
description, `destroy` marks the instance destroyed and `cancel` paths
set `isAborted` first.  `instId` distinguishes instances (JS object
identity). -/
structure LooperInst where
  instId : ℕ
  isDestroyed : Bool
  isAborted : Bool
  deriving Repr, DecidableEq

/-- The silence-gap state object stored per playlist
(`silence.js` lines 218-224): `{gap, cancelled, timer, resolve,
sourceSound}`.  `hasTimer`/`hasResolve` model the truthiness guards on
the `timer` and `resolve` fields; `timerCancelled`/`resolved` record the
effects applied to them. -/
structure SilenceGap where
  gapId : Option ℕ
  cancelled : Bool
  hasTimer : Bool
  timerCancelled : Bool
  hasResolve : Bool
  resolved : Bool
  sourceSoundId : Option ℕ
  deriving Repr, DecidableEq

/-- The registry state of `StateManager` relevant to cleanup and loop
scheduling.  `nextInstId` supplies fresh identities for newly constructed
`LoopingSound` objects. -/
structure ModuleState where
  crossfadeTimers : ℕ → Option ℕ
  playWaiters : ℕ → Option ℕ
  silentGaps : ℕ → Option SilenceGap
  cancelledGaps : List ℕ
  activeLoopers : ℕ → Option LooperInst
  nextInstId : ℕ

/-- One observable step of `StateManager.cleanup`, in source order. -/
inductive CleanupStep where
  | cancelCrossfadeTimer (timerId : ℕ)
  | clearCrossfadeTimer
  | removePlayListener (soundId : ℕ)
  | clearPlayWaiter
  | markSilenceCancelled
  | cancelSilenceTimer
  | markGapCancelled (gapId : ℕ)
  | requestGapDelete (gapId : ℕ)
  | emitSilenceEndEvent
  | recordSilenceMetric
  | resolveSilencePromise
  | clearSilenceState
  | destroyLooper (soundId : ℕ) (allowFadeOut : Bool)
  | clearActiveLooper (soundId : ℕ)
  deriving Repr, DecidableEq

/-- The cleanup phase a step belongs to: crossfade steps are phase `0`,
silence steps phase `1`, looper steps phase `2`. -/
def CleanupStep.phase : CleanupStep → ℕ
  | .cancelCrossfadeTimer _ => 0
  | .clearCrossfadeTimer => 0
  | .removePlayListener _ => 0
  | .clearPlayWaiter => 0
  | .markSilenceCancelled => 1
  | .cancelSilenceTimer => 1
  | .markGapCancelled _ => 1
  | .requestGapDelete _ => 1
  | .emitSilenceEndEvent => 1
  | .recordSilenceMetric => 1
  | .resolveSilencePromise => 1
  | .clearSilenceState => 1
  | .destroyLooper _ _ => 2
  | .clearActiveLooper _ => 2

/-- Options of `StateManager.cleanup` (`state-manager.js` lines 489-496);
the source defaults are `cleanSilence = cleanCrossfade = cleanLoopers =
true`, `onlySound = null`, `allowFadeOut = false`. -/
structure CleanupOptions where
  cleanSilence : Bool
  cleanCrossfade : Bool
  cleanLoopers : Bool
  onlySound : Option ℕ
  allowFadeOut : Bool
  deriving Repr, DecidableEq

/-- Step 1 of `StateManager.cleanup` (`state-manager.js` lines 501-524):
cancel and clear the crossfade timer, then remove the play listener and
clear the play waiter. -/
def cleanupCrossfadePhase (st : ModuleState) (playlistId : ℕ) :
    ModuleState × List CleanupStep :=
  let timerSteps :=
    match st.crossfadeTimers playlistId with
    | some tid => [CleanupStep.cancelCrossfadeTimer tid, CleanupStep.clearCrossfadeTimer]
    | none => []
  let waiterSteps :=
    match st.playWaiters playlistId with
    | some sid => [CleanupStep.removePlayListener sid, CleanupStep.clearPlayWaiter]
    | none => []
  ({ st with
      crossfadeTimers := fun p => if p = playlistId then none else st.crossfadeTimers p
      playWaiters := fun p => if p = playlistId then none else st.playWaiters p },
   timerSteps ++ waiterSteps)

/-- The mutation `cleanup` applies to the shared silence-state object
(`state-manager.js` lines 532-533 and 555): `cancelled = true`, the timer
cancelled if present, the promise resolved if present.  The object is
shared with the pending `playSilence` continuation, which therefore
observes these fields. -/
def cancelledSilenceGap (g : SilenceGap) : SilenceGap :=
  { g with
      cancelled := true
      timerCancelled := g.hasTimer || g.timerCancelled
      resolved := g.hasResolve || g.resolved }

/-- Step 2 of `StateManager.cleanup` (`state-manager.js` lines 527-562):
mark the silence state cancelled, cancel its timer, mark and delete the
gap document, resolve the pending promise, and clear the state. -/
def cleanupSilencePhase (st : ModuleState) (playlistId : ℕ) (isGM : Bool) :
    ModuleState × List CleanupStep :=
  match st.silentGaps playlistId with
  | none => (st, [])
  | some g =>
      let gapSteps :=
        match g.gapId with
        | some gid =>
            [CleanupStep.markGapCancelled gid]
              ++ (if isGM then [CleanupStep.requestGapDelete gid] else [])
        | none => []
      let resolveSteps :=
        if g.hasResolve
        then [CleanupStep.emitSilenceEndEvent, CleanupStep.recordSilenceMetric,
              CleanupStep.resolveSilencePromise]
        else []
      ({ st with
          silentGaps := fun p => if p = playlistId then none else st.silentGaps p
          cancelledGaps :=
            match g.gapId with
            | some gid => gid :: st.cancelledGaps
            | none => st.cancelledGaps },
       [CleanupStep.markSilenceCancelled]
         ++ (if g.hasTimer then [CleanupStep.cancelSilenceTimer] else [])
         ++ gapSteps ++ resolveSteps ++ [CleanupStep.clearSilenceState])

/-- Step 3 of `StateManager.cleanup` (`state-manager.js` lines 565-579):
for each sound in scope with an active looper, set `isAborted`, call
`destroy(allowFadeOut)` and clear the registry entry. -/
def cleanupLoopersGo (allowFadeOut : Bool) :
    ModuleState → List ℕ → ModuleState × List CleanupStep
  | st, [] => (st, [])
  | st, s :: rest =>
      match st.activeLoopers s with
      | some _ =>
          let st' := { st with
            activeLoopers := fun x => if x = s then none else st.activeLoopers x }
          let r := cleanupLoopersGo allowFadeOut st' rest
          (r.1, [CleanupStep.destroyLooper s allowFadeOut,
                 CleanupStep.clearActiveLooper s] ++ r.2)
      | none => cleanupLoopersGo allowFadeOut st rest

def cleanupLoopersPhase (st : ModuleState) (sounds : List ℕ)
    (onlySound : Option ℕ) (allowFadeOut : Bool) : ModuleState × List CleanupStep :=
  let soundsToClean := match onlySound with
    | some s => [s]
    | none => sounds
  cleanupLoopersGo allowFadeOut st soundsToClean

/-- `StateManager.cleanup(playlist, options)` (`state-manager.js` lines
489-582): crossfade cleanup, then silence cleanup, then looper cleanup,
each gated by its option.  `sounds` enumerates `playlist.sounds` (their
ids) and `isGM` is `game.user.isGM`. -/
def cleanup (st : ModuleState) (playlistId : ℕ) (sounds : List ℕ)
    (isGM : Bool) (opts : CleanupOptions) : ModuleState × List CleanupStep :=
  let r1 :=
    if opts.cleanCrossfade then cleanupCrossfadePhase st playlistId else (st, [])
  let r2 :=
    if opts.cleanSilence then cleanupSilencePhase r1.1 playlistId isGM else (r1.1, [])
  let r3 :=
    if opts.cleanLoopers
    then cleanupLoopersPhase r2.1 sounds opts.onlySound opts.allowFadeOut
    else (r2.1, [])
  (r3.1, r1.2 ++ r2.2 ++ r3.2)

/-! ## `playlist-loop.js` lines 20-47: `maybeLoopPlaylist` -/

inductive PlaylistMode where
  | sequential
  | shuffle
  | simultaneous
  | soundboard
  deriving Repr, DecidableEq

/-- `maybeLoopPlaylist(playlist)` (`playlist-loop.js` lines 20-47) as a
predicate on the observed playlist state: whether a restart is
triggered. -/
def maybeLoopPlaylist (isGM isOwner : Bool) (mode : PlaylistMode)
    (anySoundPlaying : Bool) (loopPlaylistFlag : Bool) (soundsSize : ℕ) : Bool :=
  if !isGM && !isOwner then false
  else if mode ∉ [PlaylistMode.sequential, PlaylistMode.shuffle, PlaylistMode.simultaneous]
  then false
  else if mode = PlaylistMode.simultaneous && anySoundPlaying then false
  else if !loopPlaylistFlag then false
  else if soundsSize = 0 then false
  else true

/-! ## `silence.js` lines 228-272: the gap-timer completion handler

`timer.complete.then(...)` in `playSilence` runs when the precise gap
timer expires.  It closes over the shared `state` object (the one
`cleanup` mutates) and the playlist; the embedded handler takes the
registry, the captured state object and the host observations, and
returns what it does. -/

inductive SilenceFireOutcome where
  /-- Registry no longer holds a silence state: return immediately. -/
  | abortNoState
  /-- The captured state was cancelled while waiting: return immediately. -/
  | abortCancelled
  /-- Tear down the gap and start the next track. -/
  | playNext (soundId : ℕ)
  /-- No next track; `maybeLoopPlaylist` restarts the playlist. -/
  | loopPlaylist
  /-- No next track and no playlist loop: `stopAll`. -/
  | stopAll
  /-- Not GM, playlist no longer playing, or no source sound: only
  resolve the promise. -/
  | resolveOnly
  deriving Repr, DecidableEq

/-- `Array.prototype.indexOf`: `-1` when absent. -/
def jsIndexOf (l : List ℕ) (x : ℕ) : ℤ :=
  match l.findIdx? (· = x) with
  | some n => (n : ℤ)
  | none => -1

/-- The `timer.complete.then` handler of `Silence.playSilence`
(`silence.js` lines 228-272). -/
def silenceTimerFired (st : ModuleState) (playlistId : ℕ)
    (captured : SilenceGap) (isGM wasPlaying isOwner : Bool)
    (mode : PlaylistMode) (anySoundPlaying loopPlaylistFlag : Bool)
    (playbackOrder : List ℕ) (soundsSize : ℕ) : SilenceFireOutcome :=
  if (st.silentGaps playlistId).isNone then .abortNoState
  else if captured.cancelled then .abortCancelled
  else
    match captured.sourceSoundId with
    | some srcId =>
        if isGM && wasPlaying then
          let idx := jsIndexOf playbackOrder srcId + 1
          match playbackOrder.get? idx.toNat with
          | some nid => .playNext nid
          | none =>
              if maybeLoopPlaylist isGM isOwner mode anySoundPlaying
                  loopPlaylistFlag soundsSize
              then .loopPlaylist
              else .stopAll
        else .resolveOnly
    | none => .resolveOnly

/-! ## `cross-fade.js` lines 157-176 and `internal-loop.js` lines 20-73 -/

/-- `cancelCrossfade(playlist)` (`cross-fade.js` lines 157-176): cancel
and clear the crossfade timer and remove the play waiter. -/
def cancelCrossfade (st : ModuleState) (playlistId : ℕ) : ModuleState :=
  { st with
      crossfadeTimers := fun p => if p = playlistId then none else st.crossfadeTimers p
      playWaiters := fun p => if p = playlistId then none else st.playWaiters p }

/-- The observed `PlaylistSound` document in `internal-loop.js`. -/
structure PlaylistSoundDoc where
  id : ℕ
  parentId : ℕ
  playing : Bool
  deriving Repr, DecidableEq

/-- The fields of a validated loop config consulted by
`scheduleLoopWithin`. -/
structure LoopCfgFlags where
  enabled : Bool
  active : Bool
  deriving Repr, DecidableEq

/-- `cancelLoopWithin(ps, options)` (`internal-loop.js` lines 65-73):
destroy the active looper for the sound, if any, and clear its registry
entry.  The destroyed instance (with `isAborted` and `isDestroyed` set)
is no longer reachable from the registry. -/
def cancelLoopWithin (st : ModuleState) (psId : ℕ) : ModuleState :=
  match st.activeLoopers psId with
  | some _ =>
      { st with activeLoopers := fun s => if s = psId then none else st.activeLoopers s }
  | none => st

/-- `scheduleLoopWithin(ps)` (`internal-loop.js` lines 20-56): no-op when
the sound is not playing; otherwise cancel any existing looper, stop if
the config is disabled or inactive, cancel the playlist crossfade when
crossfade mode is active, and register a fresh `LoopingSound`.  `cfg` is
the result of `Flags.getLoopConfig(ps)` and `parentMode` that of
`Flags.getPlaybackMode(ps.parent)`. -/
def scheduleLoopWithin (st : ModuleState) (ps : PlaylistSoundDoc)
    (cfg : LoopCfgFlags) (parentMode : PlaybackMode) : ModuleState :=
  if !ps.playing then st
  else
    let isActive := cfg.enabled && cfg.active
    let st1 := cancelLoopWithin st ps.id
    if !cfg.enabled || !isActive then st1
    else
      let st2 := if parentMode.crossfade then cancelCrossfade st1 ps.parentId else st1
      let looper : LooperInst :=
        { instId := st2.nextInstId, isDestroyed := false, isAborted := false }
      { st2 with
          activeLoopers := fun s => if s = ps.id then some looper else st2.activeLoopers s
          nextInstId := st2.nextInstId + 1 }

/-! ## `advanced-shuffle.js` lines 96-133: Fisher-Yates and exhaustive shuffle

`Math.floor(Math.random() * (i + 1))` produces a uniform index in
`0..i`; the random source is abstracted as a function handing back, for
each loop index `i`, an element of `Fin (i + 1)`. -/

/-- A single swap `[array[i], array[j]] = [array[j], array[i]]` on a
list; out-of-bounds indices (which the loop never produces) leave the
list unchanged. -/
def listSwap {α : Type} (l : List α) (i j : ℕ) : List α :=
  if h : i < l.length ∧ j < l.length
  then (l.set i (l.get ⟨j, h.2⟩)).set j (l.get ⟨i, h.1⟩)
  else l

/-- The loop of `fisherYatesShuffle` (`advanced-shuffle.js` lines 97-100),
running `i` from the given start value down to `1`. -/
def fyLoop {α : Type} (rand : (i : ℕ) → Fin (i + 1)) :
    ℕ → List α → List α
  | 0, a => a
  | i + 1, a => fyLoop rand i (listSwap a (i + 1) (rand (i + 1)).val)

/-- `fisherYatesShuffle(array)` (`advanced-shuffle.js` lines 96-102):
in-place Fisher-Yates driven by the random source `rand`. -/
def fisherYatesShuffle {α : Type} (rand : (i : ℕ) → Fin (i + 1))
    (array : List α) : List α :=
  fyLoop rand (array.length - 1) array

/-- The shuffle state kept per playlist (`advanced-shuffle.js` lines
41-49), restricted to the fields `ExhaustiveShuffle` uses.
`playedThisCycle` is a JS `Set` of track ids, modelled as a `Finset`. -/
structure ShuffleState where
  currentCycle : List ℕ
  playedThisCycle : Finset ℕ
  cycleNumber : ℕ
  lastShuffleTime : ℤ
  deriving DecidableEq

/-- The observed track documents of a playlist, with their
`isSilenceGap` flag. -/
structure TrackDoc where
  id : ℕ
  isSilenceGap : Bool
  deriving Repr, DecidableEq

/-- The eligible ids computed at `advanced-shuffle.js` lines 118-120:
all track ids whose `isSilenceGap` flag is not set. -/
def eligibleTrackIds (sounds : List TrackDoc) : List ℕ :=
  (sounds.filter (fun s => !s.isSilenceGap)).map TrackDoc.id

/-- The regeneration condition of `ExhaustiveShuffle.generate`
(`advanced-shuffle.js` line 123): no current cycle, or the whole cycle
has been played. -/
def exhaustiveNeedsNewCycle (sounds : List TrackDoc) (state : ShuffleState) : Bool :=
  state.currentCycle.length = 0
    || (eligibleTrackIds sounds).length ≤ state.playedThisCycle.card

/-- `ExhaustiveShuffle.generate(playlist, state)` (`advanced-shuffle.js`
lines 116-133): reshuffle the eligible ids into a new cycle when needed,
otherwise return the stored cycle. -/
def exhaustiveGenerate (rand : (i : ℕ) → Fin (i + 1)) (now : ℤ)
    (sounds : List TrackDoc) (state : ShuffleState) : ShuffleState × List ℕ :=
  let allTrackIds := eligibleTrackIds sounds
  if exhaustiveNeedsNewCycle sounds state then
    let cyc := fisherYatesShuffle rand allTrackIds
    ({ currentCycle := cyc
       playedThisCycle := ∅
       cycleNumber := state.cycleNumber + 1
       lastShuffleTime := now }, cyc)
  else (state, state.currentCycle)

/-! # Theorems -/

/-! ## C2: per-entity sequence guard -/

/-- C2: for every entity id and sequence number, `shouldProcessAction`
returns `false` and leaves the stored sequence map unchanged exactly when
`seq` is at most the last-seen sequence for that id, and otherwise
returns `true` and records `seq` (with the current timestamp) as the new
last-seen entry — duplicate or lower sequence numbers are dropped. -/
theorem shouldProcessAction_spec (m : SeqMap) (playlistId : ℕ) (seq now : ℤ) :
    ((shouldProcessAction m playlistId seq now).1 = false
        ↔ seq ≤ ((m playlistId).map SeqEntry.seq).getD 0)
    ∧ ((shouldProcessAction m playlistId seq now).2
        = if seq ≤ ((m playlistId).map SeqEntry.seq).getD 0
          then m
          else m.set playlistId ⟨seq, now⟩) := by
  by_cases h : seq ≤ ((m playlistId).map SeqEntry.seq).getD 0 <;>
    simp [shouldProcessAction, h]

/-! ## C8: crossfade overrides silence -/

/-- C8: `getPlaybackMode` never reports crossfade and silence both
enabled; whenever the crossfade flag validates to `true`, the returned
`silence` field is `false` regardless of the persisted `silenceEnabled`
flag value. -/
theorem getPlaybackMode_crossfade_overrides_silence
    (rawCrossfade rawSilenceEnabled rawLoopPlaylist : JSVal) :
    ((getPlaybackMode rawCrossfade rawSilenceEnabled rawLoopPlaylist).crossfade
      && (getPlaybackMode rawCrossfade rawSilenceEnabled rawLoopPlaylist).silence) = false
    ∧ (getPlaybackMode rawCrossfade rawSilenceEnabled rawLoopPlaylist).silence
      = (!(getPlaybackMode rawCrossfade rawSilenceEnabled rawLoopPlaylist).crossfade
          && getPlaylistFlagBool rawSilenceEnabled false) := by
  unfold getPlaybackMode
  cases getPlaylistFlagBool rawCrossfade false <;> simp

/-! ## C7: fadeOutAndStop -/

/-- C7 counterexample: the claim says the only guard before `stop()` is
against a destroyed sound.  But for a non-null, non-destroyed sound whose
volume observed after the wait is `0.8` (here, a sound without a gain
node, on which the fade has no effect), `stop()` is never attempted: the
code also guards on `sound.volume <= 0.01`. -/
theorem fadeOutAndStop_counterexample :
    ((fadeOutAndStop (some ⟨false, none, 0.8, 0.8, false⟩) 500).stopAttempted = false)
    ∧ (⟨false, none, 0.8, 0.8, false⟩ : FadeSound).destroyed = false := by
  constructor
  · norm_num [fadeOutAndStop]
  · rfl

/-- C7 (amended): for every non-null sound, `fadeOutAndStop(sound, ms)`
applies the exponential fade toward volume `0`, waits the fade duration
`ms`, and then issues `stop()` if and only if the volume observed after
the wait is at most `0.01`; the `try/catch` additionally guards the stop
against the sound having already been destroyed. -/
theorem fadeOutAndStop_spec (s : FadeSound) (ms : ℚ) :
    (fadeOutAndStop (some s) ms).fade = some (advancedFade (some s) 0 ms)
    ∧ (fadeOutAndStop (some s) ms).waitedMs = some ms
    ∧ ((fadeOutAndStop (some s) ms).stopAttempted = true ↔ s.volumeAfterWait ≤ 0.01)
    ∧ ((fadeOutAndStop (some s) ms).stopSucceeded = true
        ↔ (s.volumeAfterWait ≤ 0.01 ∧ s.destroyed = false)) := by
  refine ⟨rfl, rfl, ?_, ?_⟩
  · simp [fadeOutAndStop]
  · simp [fadeOutAndStop, Bool.and_eq_true, Bool.not_eq_true']

/-! ## C5: equal-power crossfade curves -/

theorem sqrt_two_bounds : (1.414 : ℝ) ≤ Real.sqrt 2 ∧ Real.sqrt 2 ≤ 1.4145 := by
  constructor
  · nlinarith [Real.sq_sqrt (by norm_num : (0:ℝ) ≤ 2), Real.sqrt_nonneg 2]
  · nlinarith [Real.sq_sqrt (by norm_num : (0:ℝ) ≤ 2), Real.sqrt_nonneg 2]

/-- C5: `equalPowerCrossfade` builds two 64-point curves with
`curveOut[i] = startVolOut * cos(progress * π/2)` and
`curveIn[i] = targetVolIn * sin(progress * π/2)` at
`progress = i / 63`; the unscaled trigonometric factors satisfy
`cos² + sin² = 1` at every sampled progress; and for outgoing volume
`0.8` and incoming target volume `1.0`, the curve values at progress
`0.5` are within `10⁻³` of `0.566` (outgoing) and `0.707` (incoming). -/
theorem equalPowerCrossfade_curve_spec :
    (∀ (startVolOut targetVolIn : ℝ) (i : Fin CURVE_RESOLUTION),
        (equalPowerCrossfadeCurves startVolOut targetVolIn).1 i
            = startVolOut * Real.cos (sampleProgress i * (Real.pi / 2))
        ∧ (equalPowerCrossfadeCurves startVolOut targetVolIn).2 i
            = targetVolIn * Real.sin (sampleProgress i * (Real.pi / 2)))
    ∧ (∀ i : Fin CURVE_RESOLUTION,
        ((equalPowerCrossfadeCurves 1 1).1 i) ^ 2
          + ((equalPowerCrossfadeCurves 1 1).2 i) ^ 2 = 1)
    ∧ |equalPowerOut 0.8 (1/2) - 0.566| < 1/1000
    ∧ |equalPowerIn 1 (1/2) - 0.707| < 1/1000 := by
  have harg : ∀ p : ℝ, p * 0.5 * Real.pi = p * (Real.pi / 2) := by
    intro p; ring
  refine ⟨?_, ?_, ?_, ?_⟩
  · intro v w i
    constructor
    · simp only [equalPowerCrossfadeCurves, equalPowerOut, harg]
    · simp only [equalPowerCrossfadeCurves, equalPowerIn, harg]
  · intro i
    simp only [equalPowerCrossfadeCurves, equalPowerOut, equalPowerIn, one_mul]
    exact Real.cos_sq_add_sin_sq _
  · have h4 : (1/2 : ℝ) * 0.5 * Real.pi = Real.pi / 4 := by ring
    rw [equalPowerOut, h4, Real.cos_pi_div_four, abs_lt]
    obtain ⟨h1, h2⟩ := sqrt_two_bounds
    constructor <;> nlinarith
  · have h4 : (1/2 : ℝ) * 0.5 * Real.pi = Real.pi / 4 := by ring
    rw [equalPowerIn, h4, Real.sin_pi_div_four, abs_lt]
    obtain ⟨h1, h2⟩ := sqrt_two_bounds
    constructor <;> nlinarith

/-! ## C6: exponential fade curve -/

theorem clamp01_bounds (x : ℝ) : 0 ≤ max 0 (min 1 x) ∧ max 0 (min 1 x) ≤ 1 :=
  ⟨le_max_left 0 _, max_le (by norm_num) (min_le_left 1 x)⟩

/-- C6 counterexample: the claim promises the first sample exactly equals
the requested start volume for every request, but the code clamps the
inputs to `[0, 1]` before forcing the endpoints: requesting start volume
`2` yields a first sample of `1`. -/
theorem generateExponentialCurve_counterexample :
    generateExponentialCurve 2 1 ⟨0, by norm_num [CURVE_RESOLUTION]⟩ ≠ 2 := by
  unfold generateExponentialCurve
  rw [Function.update_noteq (by decide), Function.update_same]
  norm_num

/-- C6 (amended): for every requested start and target volume,
`generateExponentialCurve` returns a 64-sample curve whose forced first
and last samples equal the requested volumes clamped to `[0, 1]` — so
they exactly equal the requested volumes whenever those lie within
`[0, 1]` — and every sample of the curve (interior samples included)
always lies within `[0, 1]`. -/
theorem generateExponentialCurve_spec (startVol targetVol : ℝ) :
    generateExponentialCurve startVol targetVol ⟨0, by norm_num [CURVE_RESOLUTION]⟩
        = max 0 (min 1 startVol)
    ∧ generateExponentialCurve startVol targetVol ⟨63, by norm_num [CURVE_RESOLUTION]⟩
        = max 0 (min 1 targetVol)
    ∧ (∀ i, 0 ≤ generateExponentialCurve startVol targetVol i
        ∧ generateExponentialCurve startVol targetVol i ≤ 1)
    ∧ (0 ≤ startVol → startVol ≤ 1 →
        generateExponentialCurve startVol targetVol
          ⟨0, by norm_num [CURVE_RESOLUTION]⟩ = startVol)
    ∧ (0 ≤ targetVol → targetVol ≤ 1 →
        generateExponentialCurve startVol targetVol
          ⟨63, by norm_num [CURVE_RESOLUTION]⟩ = targetVol) := by
  have h0 : generateExponentialCurve startVol targetVol
      ⟨0, by norm_num [CURVE_RESOLUTION]⟩ = max 0 (min 1 startVol) := by
    unfold generateExponentialCurve
    rw [Function.update_noteq (by decide), Function.update_same]
  have h63 : generateExponentialCurve startVol targetVol
      ⟨63, by norm_num [CURVE_RESOLUTION]⟩ = max 0 (min 1 targetVol) := by
    unfold generateExponentialCurve
    rw [Function.update_same]
  refine ⟨h0, h63, ?_, ?_, ?_⟩
  · intro i
    unfold generateExponentialCurve
    by_cases hi63 : i = ⟨63, by norm_num [CURVE_RESOLUTION]⟩
    · rw [hi63, Function.update_same]
      exact clamp01_bounds targetVol
    · rw [Function.update_noteq hi63]
      by_cases hi0 : i = ⟨0, by norm_num [CURVE_RESOLUTION]⟩
      · rw [hi0, Function.update_same]
        exact clamp01_bounds startVol
      · rw [Function.update_noteq hi0]
        unfold rawExpCurve
        exact clamp01_bounds _
  · intro hs0 hs1
    rw [h0, min_eq_right hs1, max_eq_right hs0]
  · intro ht0 ht1
    rw [h63, min_eq_right ht1, max_eq_right ht0]

/-- C6 witness: the amended theorem applied at the requested volumes
`0.8` and `1.0`, discharging the in-range clauses there. -/
theorem generateExponentialCurve_spec_witness :
    ((0:ℝ) ≤ 0.8 ∧ (0.8:ℝ) ≤ 1 ∧ (0:ℝ) ≤ 1 ∧ (1:ℝ) ≤ 1)
    ∧ (generateExponentialCurve 0.8 1 ⟨0, by norm_num [CURVE_RESOLUTION]⟩ = 0.8
        ∧ generateExponentialCurve 0.8 1 ⟨63, by norm_num [CURVE_RESOLUTION]⟩ = 1
        ∧ ∀ i, 0 ≤ generateExponentialCurve 0.8 1 i
            ∧ generateExponentialCurve 0.8 1 i ≤ 1) :=
  ⟨⟨by norm_num, by norm_num, by norm_num, by norm_num⟩,
   (generateExponentialCurve_spec 0.8 1).2.2.2.1 (by norm_num) (by norm_num),
   (generateExponentialCurve_spec 0.8 1).2.2.2.2 (by norm_num) (by norm_num),
   (generateExponentialCurve_spec 0.8 1).2.2.1⟩

/-! ## C3 and C4: loop scheduling -/

/-- A registry state with one live looper registered for sound `1`,
used by the C3 counterexample and witness. -/
def loopTestState : ModuleState where
  crossfadeTimers := fun p => if p = 0 then some 7 else none
  playWaiters := fun p => if p = 0 then some 9 else none
  silentGaps := fun _ => none
  cancelledGaps := []
  activeLoopers := fun s => if s = 1 then some ⟨0, false, false⟩ else none
  nextInstId := 1

/-- C3 counterexample: the claim says `scheduleLoopWithin` is a no-op
(all registry state unchanged) when the loop config is disabled.  But the
existing looper is cancelled before the disabled check: for a playing
sound with a registered looper and `enabled = false`, the call removes
the looper from the registry. -/
theorem scheduleLoopWithin_counterexample :
    (scheduleLoopWithin loopTestState ⟨1, 0, true⟩ ⟨false, true⟩
        ⟨false, false, false⟩).activeLoopers 1
      ≠ loopTestState.activeLoopers 1 := by
  simp [scheduleLoopWithin, cancelLoopWithin, loopTestState]

/-- C3 (amended): `scheduleLoopWithin` destroys and unregisters any
existing looper before registering a new one, so calling it twice in
succession leaves exactly one registered looper (the fresh instance of
the second call, replacing that of the first); it is a no-op — all
registry state unchanged — when the track is not playing; when the loop
config is disabled or inactive it registers no looper and its only
registry effect is cancelling any existing looper (so it is a no-op in
that case only when no looper was registered). -/
theorem scheduleLoopWithin_spec (st : ModuleState) (ps : PlaylistSoundDoc)
    (cfg : LoopCfgFlags) (pm : PlaybackMode) :
    (ps.playing = false → scheduleLoopWithin st ps cfg pm = st)
    ∧ (ps.playing = true → (cfg.enabled && cfg.active) = false →
        scheduleLoopWithin st ps cfg pm = cancelLoopWithin st ps.id
        ∧ (scheduleLoopWithin st ps cfg pm).activeLoopers ps.id = none
        ∧ (st.activeLoopers ps.id = none → scheduleLoopWithin st ps cfg pm = st))
    ∧ (ps.playing = true → (cfg.enabled && cfg.active) = true →
        (scheduleLoopWithin st ps cfg pm).activeLoopers ps.id
            = some ⟨st.nextInstId, false, false⟩
        ∧ (∀ s, s ≠ ps.id →
            (scheduleLoopWithin st ps cfg pm).activeLoopers s = st.activeLoopers s)
        ∧ (scheduleLoopWithin (scheduleLoopWithin st ps cfg pm) ps cfg pm).activeLoopers
            ps.id = some ⟨st.nextInstId + 1, false, false⟩
        ∧ (scheduleLoopWithin (scheduleLoopWithin st ps cfg pm) ps cfg pm).activeLoopers
            ps.id ≠ (scheduleLoopWithin st ps cfg pm).activeLoopers ps.id) := by
  have henabled : ∀ b c : Bool, (b && (b && c)) = (b && c) := by decide
  refine ⟨?_, ?_, ?_⟩
  · intro hp
    simp [scheduleLoopWithin, hp]
  · intro hp hcfg
    have hc : (cfg.enabled && (cfg.enabled && cfg.active)) = false := by
      rw [henabled]; exact hcfg
    refine ⟨?_, ?_, ?_⟩
    · simp [scheduleLoopWithin, hp, hcfg, hc]
    · simp only [scheduleLoopWithin, hp, hcfg, hc]
      simp [cancelLoopWithin]
      cases hl : st.activeLoopers ps.id <;> simp [hl]
    · intro hnone
      simp [scheduleLoopWithin, hp, hcfg, hc, cancelLoopWithin, hnone]
  · intro hp hcfg
    have hc : (cfg.enabled && (cfg.enabled && cfg.active)) = true := by
      rw [henabled]; exact hcfg
    have he : cfg.enabled = true := by
      revert hcfg; cases cfg.enabled <;> simp
    have ha : cfg.active = true := by
      revert hcfg; cases cfg.active <;> simp
    have hreg : ∀ st' : ModuleState,
        (scheduleLoopWithin st' ps cfg pm).activeLoopers ps.id
            = some ⟨st'.nextInstId, false, false⟩
        ∧ (scheduleLoopWithin st' ps cfg pm).nextInstId = st'.nextInstId + 1 := by
      intro st'
      simp only [scheduleLoopWithin, hp, hcfg, hc, he]
      cases pm.crossfade <;>
        cases hl : st'.activeLoopers ps.id <;>
        simp [cancelCrossfade, cancelLoopWithin, hl, he, ha]
    have h1 := hreg st
    have h2 := hreg (scheduleLoopWithin st ps cfg pm)
    refine ⟨h1.1, ?_, ?_, ?_⟩
    · intro s hs
      simp only [scheduleLoopWithin, hp, hcfg, hc, he]
      cases pm.crossfade <;>
        cases hl : st.activeLoopers ps.id <;>
        simp [cancelCrossfade, cancelLoopWithin, hl, hs, he, ha]
    · rw [h2.1, h1.2]
    · rw [h2.1, h1.2, h1.1]
      simp

/-- C3 witness: the amended theorem applied at a playing sound with an
enabled, active config on `loopTestState`. -/
theorem scheduleLoopWithin_spec_witness :
    (⟨1, 0, true⟩ : PlaylistSoundDoc).playing = true
    ∧ ((⟨true, true⟩ : LoopCfgFlags).enabled && (⟨true, true⟩ : LoopCfgFlags).active) = true
    ∧ (scheduleLoopWithin loopTestState ⟨1, 0, true⟩ ⟨true, true⟩
        ⟨false, false, false⟩).activeLoopers 1 = some ⟨1, false, false⟩ :=
  ⟨rfl, rfl,
    ((scheduleLoopWithin_spec loopTestState ⟨1, 0, true⟩ ⟨true, true⟩
      ⟨false, false, false⟩).2.2 rfl rfl).1⟩

/-- C4: whenever `scheduleLoopWithin` creates a new looper for a track
whose playlist has crossfade mode enabled, it cancels the playlist
crossfade timer and removes its play waiter: after the looper is
registered, no crossfade timer or play waiter remains registered for the
parent playlist. -/
theorem scheduleLoopWithin_cancels_crossfade (st : ModuleState)
    (ps : PlaylistSoundDoc) (cfg : LoopCfgFlags) (pm : PlaybackMode)
    (hp : ps.playing = true) (he : cfg.enabled = true) (ha : cfg.active = true)
    (hc : pm.crossfade = true) :
    (scheduleLoopWithin st ps cfg pm).crossfadeTimers ps.parentId = none
    ∧ (scheduleLoopWithin st ps cfg pm).playWaiters ps.parentId = none
    ∧ (scheduleLoopWithin st ps cfg pm).activeLoopers ps.id
        = some ⟨st.nextInstId, false, false⟩ := by
  simp only [scheduleLoopWithin, hp, he, ha, hc]
  simp only [Bool.and_self, Bool.not_true, Bool.false_or, Bool.true_and]
  cases hl : st.activeLoopers ps.id <;>
    simp [cancelLoopWithin, cancelCrossfade, hl]

/-- C4 witness: the theorem applied on `loopTestState`, whose playlist
`0` holds a pending crossfade timer and play waiter. -/
theorem scheduleLoopWithin_cancels_crossfade_witness :
    ((⟨1, 0, true⟩ : PlaylistSoundDoc).playing = true
      ∧ (⟨true, true⟩ : LoopCfgFlags).enabled = true
      ∧ (⟨true, true⟩ : LoopCfgFlags).active = true
      ∧ (⟨true, false, false⟩ : PlaybackMode).crossfade = true)
    ∧ ((scheduleLoopWithin loopTestState ⟨1, 0, true⟩ ⟨true, true⟩
          ⟨true, false, false⟩).crossfadeTimers 0 = none
      ∧ (scheduleLoopWithin loopTestState ⟨1, 0, true⟩ ⟨true, true⟩
          ⟨true, false, false⟩).playWaiters 0 = none
      ∧ (scheduleLoopWithin loopTestState ⟨1, 0, true⟩ ⟨true, true⟩
          ⟨true, false, false⟩).activeLoopers 1 = some ⟨1, false, false⟩) :=
  ⟨⟨rfl, rfl, rfl, rfl⟩,
    scheduleLoopWithin_cancels_crossfade loopTestState ⟨1, 0, true⟩
      ⟨true, true⟩ ⟨true, false, false⟩ rfl rfl rfl rfl⟩

/-! ## C1: coordinated cleanup order -/

theorem phase_all_imp {t : List CleanupStep} {k : ℕ}
    (h : t.all (fun e => e.phase == k) = true) : ∀ e ∈ t, e.phase = k := by
  intro e he
  simpa using List.all_eq_true.mp h e he

theorem cleanupCrossfadePhase_phase (st : ModuleState) (p : ℕ) :
    ((cleanupCrossfadePhase st p).2).all (fun e => e.phase == 0) = true := by
  unfold cleanupCrossfadePhase
  rcases h1 : st.crossfadeTimers p with _ | tid <;>
    rcases h2 : st.playWaiters p with _ | sid <;>
    simp [CleanupStep.phase]

theorem cleanupSilencePhase_phase (st : ModuleState) (p : ℕ) (isGM : Bool) :
    ((cleanupSilencePhase st p isGM).2).all (fun e => e.phase == 1) = true := by
  unfold cleanupSilencePhase
  rcases hg : st.silentGaps p with _ | g
  · rfl
  · rcases hgid : g.gapId with _ | gid <;>
      by_cases ht : g.hasTimer <;>
      by_cases hres : g.hasResolve <;>
      by_cases hgm : isGM <;>
      simp [hgid, ht, hres, hgm, CleanupStep.phase]

theorem cleanupLoopersGo_phase (a : Bool) (l : List ℕ) :
    ∀ st : ModuleState, ∀ e ∈ (cleanupLoopersGo a st l).2, e.phase = 2 := by
  induction l with
  | nil =>
      intro st e he
      simp [cleanupLoopersGo] at he
  | cons s rest ih =>
      intro st e he
      unfold cleanupLoopersGo at he
      rcases h : st.activeLoopers s with _ | lp
      · rw [h] at he
        exact ih st e he
      · rw [h] at he
        simp only [List.mem_append, List.mem_cons, List.not_mem_nil, or_false] at he
        rcases he with (rfl | rfl) | he
        · rfl
        · rfl
        · exact ih _ e he

theorem pairwise_phase_of_const (t : List CleanupStep) (k : ℕ)
    (h : ∀ e ∈ t, e.phase = k) :
    t.Pairwise (fun a b => a.phase ≤ b.phase) := by
  induction t with
  | nil => exact List.Pairwise.nil
  | cons x xs ih =>
      refine List.Pairwise.cons ?_ (ih fun e he => h e (List.mem_cons_of_mem _ he))
      intro b hb
      rw [h x (List.mem_cons_self _ _), h b (List.mem_cons_of_mem _ hb)]

theorem pairwise_phases_append (t1 t2 t3 : List CleanupStep)
    (h1 : ∀ e ∈ t1, e.phase = 0) (h2 : ∀ e ∈ t2, e.phase = 1)
    (h3 : ∀ e ∈ t3, e.phase = 2) :
    (t1 ++ t2 ++ t3).Pairwise (fun a b => a.phase ≤ b.phase) := by
  rw [List.pairwise_append]
  refine ⟨?_, pairwise_phase_of_const t3 2 h3, ?_⟩
  · rw [List.pairwise_append]
    refine ⟨pairwise_phase_of_const t1 0 h1, pairwise_phase_of_const t2 1 h2, ?_⟩
    intro a ha b hb
    rw [h1 a ha, h2 b hb]
    omega
  · intro a ha b hb
    rw [h3 b hb]
    rcases List.mem_append.mp ha with h | h
    · rw [h1 a h]; omega
    · rw [h2 a h]; omega

theorem cleanupSilencePhase_silentGaps (st : ModuleState) (p : ℕ) (isGM : Bool) :
    ((cleanupSilencePhase st p isGM).1).silentGaps p = none := by
  unfold cleanupSilencePhase
  rcases hg : st.silentGaps p with _ | g <;> simp [hg]

theorem cleanupSilencePhase_other_fields (st : ModuleState) (p : ℕ) (isGM : Bool) :
    ((cleanupSilencePhase st p isGM).1).activeLoopers = st.activeLoopers
    ∧ ((cleanupSilencePhase st p isGM).1).crossfadeTimers = st.crossfadeTimers
    ∧ ((cleanupSilencePhase st p isGM).1).playWaiters = st.playWaiters := by
  unfold cleanupSilencePhase
  rcases hg : st.silentGaps p with _ | g <;> exact ⟨rfl, rfl, rfl⟩

theorem cleanupLoopersGo_state (a : Bool) (l : List ℕ) :
    ∀ st : ModuleState,
      (∀ s, ((cleanupLoopersGo a st l).1).activeLoopers s
          = if s ∈ l then none else st.activeLoopers s)
      ∧ ((cleanupLoopersGo a st l).1).silentGaps = st.silentGaps
      ∧ ((cleanupLoopersGo a st l).1).crossfadeTimers = st.crossfadeTimers
      ∧ ((cleanupLoopersGo a st l).1).playWaiters = st.playWaiters := by
  induction l with
  | nil =>
      intro st
      refine ⟨fun s => ?_, rfl, rfl, rfl⟩
      simp [cleanupLoopersGo]
  | cons x rest ih =>
      intro st
      unfold cleanupLoopersGo
      rcases h : st.activeLoopers x with _ | lp
      · obtain ⟨ha, hs, hc, hw⟩ := ih st
        refine ⟨fun s => ?_, hs, hc, hw⟩
        rw [ha s]
        by_cases hsx : s = x
        · subst hsx
          simp [h]
        · simp [hsx]
      · obtain ⟨ha, hs, hc, hw⟩ := ih
          { st with activeLoopers := fun y => if y = x then none else st.activeLoopers y }
        refine ⟨fun s => ?_, hs, hc, hw⟩
        rw [ha s]
        by_cases hsx : s = x <;> simp [hsx]

/-- C1: `State.cleanup(playlist)` executes its steps in the fixed order
crossfade (cancel timer, remove play waiter) before silence (mark
cancelled, cancel timer, resolve) before loopers (destroy and clear);
afterwards the crossfade timer, play waiter and silence state for the
playlist are gone; the silence-gap completion handler of `playSilence`,
whether it observes the registry or the mutated captured state object,
does nothing and does not advance the playlist; and the loopers of all
the playlist sounds — or of the single sound given in `onlySound` — are
destroyed and unregistered. -/
theorem cleanup_fixed_order (st : ModuleState) (playlistId : ℕ) (sounds : List ℕ)
    (isGM : Bool) (opts : CleanupOptions) (hs : opts.cleanSilence = true) :
    ((cleanup st playlistId sounds isGM opts).2).Pairwise
        (fun a b => a.phase ≤ b.phase)
    ∧ (opts.cleanCrossfade = true →
        (cleanup st playlistId sounds isGM opts).1.crossfadeTimers playlistId = none
        ∧ (cleanup st playlistId sounds isGM opts).1.playWaiters playlistId = none)
    ∧ (cleanup st playlistId sounds isGM opts).1.silentGaps playlistId = none
    ∧ (∀ g, st.silentGaps playlistId = some g →
        (cancelledSilenceGap g).cancelled = true
        ∧ ∀ isGM2 wasPlaying isOwner mode anyPlaying loopFlag order size,
            silenceTimerFired (cleanup st playlistId sounds isGM opts).1 playlistId
              (cancelledSilenceGap g) isGM2 wasPlaying isOwner mode anyPlaying
              loopFlag order size = SilenceFireOutcome.abortNoState)
    ∧ (opts.cleanLoopers = true →
        ∀ s ∈ (match opts.onlySound with | some x => [x] | none => sounds),
          (cleanup st playlistId sounds isGM opts).1.activeLoopers s = none) := by
  obtain ⟨cs, cc, cl, os, af⟩ := opts
  simp only at hs
  subst hs
  have hmem0 : ∀ e ∈ ([] : List CleanupStep), e.phase = 0 := by simp
  have hmem2 : ∀ e ∈ ([] : List CleanupStep), e.phase = 2 := by simp
  have hgo := fun st' => cleanupLoopersGo_state af
    (match os with | some x => [x] | none => sounds) st'
  cases cc <;> cases cl <;>
    simp only [cleanup, cleanupLoopersPhase, if_true, if_false,
      Bool.false_eq_true, Bool.true_eq_false, ite_true, ite_false,
      reduceIte] <;>
    refine ⟨?_, ?_, ?_, ?_, ?_⟩
  · exact pairwise_phases_append _ _ _ hmem0
      (phase_all_imp (cleanupSilencePhase_phase _ playlistId isGM)) hmem2
  · intro h
    exact absurd h (by simp)
  · exact cleanupSilencePhase_silentGaps _ playlistId isGM
  · intro g hg
    refine ⟨rfl, fun isGM2 wasPlaying isOwner mode anyPlaying loopFlag order size => ?_⟩
    unfold silenceTimerFired
    rw [cleanupSilencePhase_silentGaps _ playlistId isGM]
    rfl
  · intro h
    exact absurd h (by simp)
  · exact pairwise_phases_append _ _ _ hmem0
      (phase_all_imp (cleanupSilencePhase_phase _ playlistId isGM))
      (cleanupLoopersGo_phase af _ _)
  · intro h
    exact absurd h (by simp)
  · rw [(hgo _).2.1]
    exact cleanupSilencePhase_silentGaps _ playlistId isGM
  · intro g hg
    refine ⟨rfl, fun isGM2 wasPlaying isOwner mode anyPlaying loopFlag order size => ?_⟩
    unfold silenceTimerFired
    rw [(hgo _).2.1, cleanupSilencePhase_silentGaps _ playlistId isGM]
    rfl
  · intro _ s hsmem
    rw [(hgo _).1 s, if_pos hsmem]
  · exact pairwise_phases_append _ _ _
      (phase_all_imp (cleanupCrossfadePhase_phase st playlistId))
      (phase_all_imp (cleanupSilencePhase_phase _ playlistId isGM)) hmem2
  · intro _
    constructor
    · rw [(cleanupSilencePhase_other_fields _ playlistId isGM).2.1]
      simp [cleanupCrossfadePhase]
    · rw [(cleanupSilencePhase_other_fields _ playlistId isGM).2.2]
      simp [cleanupCrossfadePhase]
  · exact cleanupSilencePhase_silentGaps _ playlistId isGM
  · intro g hg
    refine ⟨rfl, fun isGM2 wasPlaying isOwner mode anyPlaying loopFlag order size => ?_⟩
    unfold silenceTimerFired
    rw [cleanupSilencePhase_silentGaps _ playlistId isGM]
    rfl
  · intro h
    exact absurd h (by simp)
  · exact pairwise_phases_append _ _ _
      (phase_all_imp (cleanupCrossfadePhase_phase st playlistId))
      (phase_all_imp (cleanupSilencePhase_phase _ playlistId isGM))
      (cleanupLoopersGo_phase af _ _)
  · intro _
    constructor
    · rw [(hgo _).2.2.1,
        (cleanupSilencePhase_other_fields _ playlistId isGM).2.1]
      simp [cleanupCrossfadePhase]
    · rw [(hgo _).2.2.2,
        (cleanupSilencePhase_other_fields _ playlistId isGM).2.2]
      simp [cleanupCrossfadePhase]
  · rw [(hgo _).2.1]
    exact cleanupSilencePhase_silentGaps _ playlistId isGM
  · intro g hg
    refine ⟨rfl, fun isGM2 wasPlaying isOwner mode anyPlaying loopFlag order size => ?_⟩
    unfold silenceTimerFired
    rw [(hgo _).2.1, cleanupSilencePhase_silentGaps _ playlistId isGM]
    rfl
  · intro _ s hsmem
    rw [(hgo _).1 s, if_pos hsmem]

/-- A populated registry state for the C1 witness: playlist `0` holds a
pending crossfade timer, a play waiter and an active silence gap, and
its sounds `1` and `2` both have live loopers. -/
def cleanupTestState : ModuleState where
  crossfadeTimers := fun p => if p = 0 then some 7 else none
  playWaiters := fun p => if p = 0 then some 3 else none
  silentGaps := fun p =>
    if p = 0 then some ⟨some 5, false, true, false, true, false, some 2⟩ else none
  cancelledGaps := []
  activeLoopers := fun s => if s = 1 ∨ s = 2 then some ⟨0, false, false⟩ else none
  nextInstId := 1

/-- C1 witness: the cleanup-order theorem applied to `cleanupTestState`
with the default options. -/
theorem cleanup_fixed_order_witness :
    (⟨true, true, true, none, false⟩ : CleanupOptions).cleanSilence = true
    ∧ (((cleanup cleanupTestState 0 [1, 2] true ⟨true, true, true, none, false⟩).2).Pairwise
          (fun a b => a.phase ≤ b.phase)
      ∧ ((⟨true, true, true, none, false⟩ : CleanupOptions).cleanCrossfade = true →
          (cleanup cleanupTestState 0 [1, 2] true
            ⟨true, true, true, none, false⟩).1.crossfadeTimers 0 = none
          ∧ (cleanup cleanupTestState 0 [1, 2] true
            ⟨true, true, true, none, false⟩).1.playWaiters 0 = none)
      ∧ (cleanup cleanupTestState 0 [1, 2] true
          ⟨true, true, true, none, false⟩).1.silentGaps 0 = none
      ∧ (∀ g, cleanupTestState.silentGaps 0 = some g →
          (cancelledSilenceGap g).cancelled = true
          ∧ ∀ isGM2 wasPlaying isOwner mode anyPlaying loopFlag order size,
              silenceTimerFired (cleanup cleanupTestState 0 [1, 2] true
                  ⟨true, true, true, none, false⟩).1 0
                (cancelledSilenceGap g) isGM2 wasPlaying isOwner mode anyPlaying
                loopFlag order size = SilenceFireOutcome.abortNoState)
      ∧ ((⟨true, true, true, none, false⟩ : CleanupOptions).cleanLoopers = true →
          ∀ s ∈ (match (⟨true, true, true, none, false⟩ : CleanupOptions).onlySound with
            | some x => [x] | none => [1, 2]),
            (cleanup cleanupTestState 0 [1, 2] true
              ⟨true, true, true, none, false⟩).1.activeLoopers s = none)) :=
  ⟨rfl, cleanup_fixed_order cleanupTestState 0 [1, 2] true
    ⟨true, true, true, none, false⟩ rfl⟩

/-! ## C10: exhaustive shuffle produces permutations -/

theorem listSwap_perm {α : Type} [DecidableEq α] (l : List α) (i j : ℕ) :
    (listSwap l i j).Perm l := by
  unfold listSwap
  split
  · rename_i hb
    obtain ⟨hi, hj⟩ := hb
    simp only [List.get_eq_getElem]
    rw [List.perm_iff_count]
    intro a
    have hj2 : j < (l.set i l[j]).length := by simpa using hj
    rw [List.count_set _ _ _ _ hj2, List.count_set _ _ _ _ hi]
    have hgj : (l.set i l[j])[j] = l[j] := by
      rw [List.getElem_set]
      split <;> rename_i hij
      · subst hij; rfl
      · rfl
    rw [hgj]
    by_cases hA : l[i] = a <;> by_cases hB : l[j] = a
    · have h1 : 0 < l.count a := List.count_pos_iff.mpr (hA ▸ List.getElem_mem hi)
      simp only [hA, hB, beq_self_eq_true, if_true]
      omega
    · have h1 : 0 < l.count a := List.count_pos_iff.mpr (hA ▸ List.getElem_mem hi)
      simp only [hA, hB, beq_self_eq_true, beq_iff_eq, if_true, if_false,
        Bool.false_eq_true]
      omega
    · have h1 : 0 < l.count a := List.count_pos_iff.mpr (hB ▸ List.getElem_mem hj)
      simp only [hA, hB, beq_self_eq_true, beq_iff_eq, if_true, if_false,
        Bool.false_eq_true]
      omega
    · simp only [hA, hB, beq_iff_eq, if_false, Bool.false_eq_true]
      omega
  · exact List.Perm.refl l

theorem fyLoop_perm {α : Type} [DecidableEq α] (rand : (i : ℕ) → Fin (i + 1)) :
    ∀ (n : ℕ) (l : List α), (fyLoop rand n l).Perm l := by
  intro n
  induction n with
  | zero => intro l; exact List.Perm.refl l
  | succ k ih =>
      intro l
      exact (ih _).trans (listSwap_perm l (k + 1) (rand (k + 1)).val)

/-- Fisher-Yates only rearranges its input: the output is a permutation
of the input list, for every random source. -/
theorem fisherYatesShuffle_perm {α : Type} [DecidableEq α]
    (rand : (i : ℕ) → Fin (i + 1)) (array : List α) :
    (fisherYatesShuffle rand array).Perm array :=
  fyLoop_perm rand (array.length - 1) array

/-- C10: whenever `ExhaustiveShuffle.generate` (re)generates a shuffle
cycle (no current cycle, or the previous cycle fully played), the cycle
it returns is a permutation of the playlist eligible (non-silence-gap)
track ids; in particular, when those ids are distinct, each appears
exactly once in the generated cycle. -/
theorem exhaustiveGenerate_perm (rand : (i : ℕ) → Fin (i + 1)) (now : ℤ)
    (sounds : List TrackDoc) (state : ShuffleState)
    (h : exhaustiveNeedsNewCycle sounds state = true) :
    (exhaustiveGenerate rand now sounds state).2.Perm (eligibleTrackIds sounds)
    ∧ ((eligibleTrackIds sounds).Nodup →
        ∀ tid ∈ eligibleTrackIds sounds,
          (exhaustiveGenerate rand now sounds state).2.count tid = 1) := by
  have hcyc : (exhaustiveGenerate rand now sounds state).2
      = fisherYatesShuffle rand (eligibleTrackIds sounds) := by
    unfold exhaustiveGenerate
    rw [if_pos h]
  rw [hcyc]
  refine ⟨fisherYatesShuffle_perm rand _, ?_⟩
  intro hnd tid htid
  rw [(fisherYatesShuffle_perm rand (eligibleTrackIds sounds)).count_eq]
  exact List.count_eq_one_of_mem hnd htid

/-- C10 witness: a three-track playlist whose middle track is a silence
gap, with an exhausted shuffle state, regenerates a cycle that is a
permutation of the two eligible ids. -/
theorem exhaustiveGenerate_perm_witness :
    exhaustiveNeedsNewCycle [⟨1, false⟩, ⟨2, true⟩, ⟨3, false⟩]
        ⟨[], ∅, 0, 0⟩ = true
    ∧ ((exhaustiveGenerate (fun i => ⟨0, Nat.succ_pos i⟩) 0
          [⟨1, false⟩, ⟨2, true⟩, ⟨3, false⟩] ⟨[], ∅, 0, 0⟩).2.Perm
        (eligibleTrackIds [⟨1, false⟩, ⟨2, true⟩, ⟨3, false⟩])
      ∧ ((eligibleTrackIds [⟨1, false⟩, ⟨2, true⟩, ⟨3, false⟩]).Nodup →
          ∀ tid ∈ eligibleTrackIds [⟨1, false⟩, ⟨2, true⟩, ⟨3, false⟩],
            (exhaustiveGenerate (fun i => ⟨0, Nat.succ_pos i⟩) 0
              [⟨1, false⟩, ⟨2, true⟩, ⟨3, false⟩] ⟨[], ∅, 0, 0⟩).2.count tid = 1)) :=
  ⟨by decide,
   exhaustiveGenerate_perm (fun i => ⟨0, Nat.succ_pos i⟩) 0
     [⟨1, false⟩, ⟨2, true⟩, ⟨3, false⟩] ⟨[], ∅, 0, 0⟩ (by decide)⟩

/-! ## C9: loop-config validation -/

theorem toSec_nonneg (v : JSVal) : 0 ≤ toSec v := by
  cases v with
  | str s =>
      rcases h : splitOnColon s.data with _ | ⟨a, _ | ⟨b, _ | ⟨c, tl⟩⟩⟩ <;>
        simp only [toSec, h] <;>
        first
          | exact le_rfl
          | exact le_max_left 0 _
  | undefined => exact le_rfl
  | null => exact le_rfl
  | bool b => exact le_rfl
  | num q => exact le_rfl
  | arr xs => exact le_rfl
  | obj fs => exact le_rfl

theorem _validateNumber_nonneg (value : JSVal) (defaultValue : ℚ)
    (hd : 0 ≤ defaultValue) :
    0 ≤ _validateNumber value defaultValue (some 0) none := by
  unfold _validateNumber
  cases jsToNumber value with
  | none => exact hd
  | some num =>
      by_cases hn : num < 0
      · simp [hn]
      · simp [hn]
        exact not_lt.mp hn

theorem validateSegmentEntry_ok (seg : JSVal) (r : LoopSegment)
    (h : validateSegmentEntry seg = Except.ok r) :
    0 ≤ r.crossfadeMs ∧ 0 ≤ r.loopCount ∧ 0 ≤ r.startSec ∧ 0 ≤ r.endSec
    ∧ (r.skipToNext = true ∨ r.skipToNext = false) := by
  have hbounds : ∀ s e cf lc sk : JSVal,
      (({ start := if s.truthy then s else JSVal.str "00:00"
          end_ := if e.truthy then e else JSVal.str "00:00"
          crossfadeMs := _validateNumber cf 1000 (some 0) none
          loopCount := _validateNumber lc 0 (some 0) none
          skipToNext := match sk with | .bool b => b | _ => false
          startSec := toSec (if s.truthy then s else JSVal.str "00:00")
          endSec := toSec (if e.truthy then e else JSVal.str "00:00") } : LoopSegment))
        = r →
      0 ≤ r.crossfadeMs ∧ 0 ≤ r.loopCount ∧ 0 ≤ r.startSec ∧ 0 ≤ r.endSec
      ∧ (r.skipToNext = true ∨ r.skipToNext = false) := by
    intro s e cf lc sk hr
    subst hr
    refine ⟨_validateNumber_nonneg cf 1000 (by norm_num),
      _validateNumber_nonneg lc 0 le_rfl, toSec_nonneg _, toSec_nonneg _, ?_⟩
    cases (match sk with | JSVal.bool b => b | _ => false) with
    | false => exact Or.inr rfl
    | true => exact Or.inl rfl
  cases seg with
  | undefined =>
      exact absurd h (by simp [validateSegmentEntry, JSVal.getProp, Bind.bind, Except.bind])
  | null =>
      exact absurd h (by simp [validateSegmentEntry, JSVal.getProp, Bind.bind, Except.bind])
  | bool b =>
      exact hbounds .undefined .undefined .undefined .undefined .undefined (Except.ok.inj h)
  | num q =>
      exact hbounds .undefined .undefined .undefined .undefined .undefined (Except.ok.inj h)
  | str s =>
      exact hbounds .undefined .undefined .undefined .undefined .undefined (Except.ok.inj h)
  | arr xs =>
      exact hbounds .undefined .undefined .undefined .undefined .undefined (Except.ok.inj h)
  | obj fs =>
      exact hbounds ((fs.lookup "start").getD .undefined)
        ((fs.lookup "end").getD .undefined)
        ((fs.lookup "crossfadeMs").getD .undefined)
        ((fs.lookup "loopCount").getD .undefined)
        ((fs.lookup "skipToNext").getD .undefined)
        (Except.ok.inj h)

theorem mapM_validateSegmentEntry_ok (xs : List JSVal) :
    ∀ rs : List LoopSegment, xs.mapM validateSegmentEntry = Except.ok rs →
      ∀ r ∈ rs, 0 ≤ r.crossfadeMs ∧ 0 ≤ r.loopCount ∧ 0 ≤ r.startSec
        ∧ 0 ≤ r.endSec ∧ (r.skipToNext = true ∨ r.skipToNext = false) := by
  induction xs with
  | nil =>
      intro rs h r hr
      rw [List.mapM_nil] at h
      cases h
      simp at hr
  | cons x tl ih =>
      intro rs h r hr
      rw [List.mapM_cons] at h
      cases hx : validateSegmentEntry x with
      | error e =>
          rw [hx] at h
          exact absurd h (by simp [Bind.bind, Except.bind])
      | ok r0 =>
          rw [hx] at h
          cases htl : tl.mapM validateSegmentEntry with
          | error e =>
              rw [htl] at h
              exact absurd h (by simp [Bind.bind, Except.bind])
          | ok rs0 =>
              rw [htl] at h
              have : r0 :: rs0 = rs := by
                simpa [Bind.bind, Except.bind, pure, Except.pure] using h
              subst this
              rcases List.mem_cons.mp hr with rfl | hmem
              · exact validateSegmentEntry_ok x r hx
              · exact ih rs0 htl r hmem

/-- C9 (amended): whenever `getLoopConfig` returns a configuration (it
can instead throw a `TypeError`, e.g. when the raw flag value is a bare
primitive or its `segments` array contains `null`), `segments` is a list
in which every segment has `crossfadeMs ≥ 0`, `loopCount ≥ 0`, a boolean
`skipToNext`, and non-negative `startSec` and `endSec` (time values that
are not parseable strings yield `0`). -/
theorem getLoopConfig_ok_segments (rawFlag : JSVal) (cfg : LoopConfig)
    (h : getLoopConfig rawFlag = Except.ok cfg) :
    ∀ seg ∈ cfg.segments,
      0 ≤ seg.crossfadeMs ∧ 0 ≤ seg.loopCount ∧ 0 ≤ seg.startSec
      ∧ 0 ≤ seg.endSec ∧ (seg.skipToNext = true ∨ seg.skipToNext = false) := by
  unfold getLoopConfig at h
  have h2 : (_migrateLegacyLoopFlags (if rawFlag.isNullish then JSVal.obj [] else rawFlag)
      >>= fun migrated =>
        (jsAsArr ((validate migrated loopWithinSchema).getPropD "segments")).mapM
            validateSegmentEntry
          >>= fun segments =>
            pure { enabled := jsAsBool ((validate migrated loopWithinSchema).getPropD "enabled")
                   active := jsAsBool ((validate migrated loopWithinSchema).getPropD "active")
                   startFromBeginning :=
                     jsAsBool ((validate migrated loopWithinSchema).getPropD "startFromBeginning")
                   segments := segments }) = Except.ok cfg := h
  clear h
  cases hm : _migrateLegacyLoopFlags (if rawFlag.isNullish then JSVal.obj [] else rawFlag) with
  | error e =>
      rw [hm] at h2
      exact absurd h2 (by simp [Bind.bind, Except.bind])
  | ok m =>
      rw [hm] at h2
      simp only [Bind.bind, Except.bind] at h2
      cases hs : (jsAsArr ((validate m loopWithinSchema).getPropD "segments")).mapM
          validateSegmentEntry with
      | error e =>
          rw [hs] at h2
          exact absurd h2 (by simp)
      | ok rs =>
          rw [hs] at h2
          have hcfg : cfg.segments = rs := by
            simp only [pure, Except.pure] at h2
            cases h2
            rfl
          rw [hcfg]
          exact mapM_validateSegmentEntry_ok _ rs hs

/-- The raw `loopWithin` flag value used by the C9 counterexample: an
object whose `segments` array contains `null`. -/
def loopFlagCounterexampleRaw : JSVal :=
  .obj [("segments", .arr [.null])]

/-- C9 counterexample: the claim promises a validated configuration for
every raw flag value, including malformed data.  But for an object whose
`segments` array contains `null`, `getLoopConfig` does not return a
configuration at all: the per-segment read `seg.start` throws a
`TypeError` on the `null` element. -/
theorem getLoopConfig_counterexample :
    (getLoopConfig loopFlagCounterexampleRaw).isOk = false := by
  have hdup : jsDuplicate loopFlagCounterexampleRaw = loopFlagCounterexampleRaw := by
    simp [jsDuplicate, loopFlagCounterexampleRaw, List.attach, List.attachWith,
      JSVal.isUndefined]
  have hmig : _migrateLegacyLoopFlags loopFlagCounterexampleRaw
      = Except.ok loopFlagCounterexampleRaw := by
    unfold _migrateLegacyLoopFlags
    rw [show (if loopFlagCounterexampleRaw.isNullish then JSVal.obj []
        else loopFlagCounterexampleRaw) = loopFlagCounterexampleRaw from rfl, hdup]
    rfl
  show (_migrateLegacyLoopFlags (if loopFlagCounterexampleRaw.isNullish
      then JSVal.obj [] else loopFlagCounterexampleRaw)
    >>= fun migrated =>
      (jsAsArr ((validate migrated loopWithinSchema).getPropD "segments")).mapM
          validateSegmentEntry
        >>= fun segments =>
          pure { enabled := jsAsBool ((validate migrated loopWithinSchema).getPropD "enabled")
                 active := jsAsBool ((validate migrated loopWithinSchema).getPropD "active")
                 startFromBeginning :=
                   jsAsBool ((validate migrated loopWithinSchema).getPropD "startFromBeginning")
                 segments := segments } : Except String LoopConfig).isOk = false
  rw [show (if loopFlagCounterexampleRaw.isNullish then JSVal.obj []
      else loopFlagCounterexampleRaw) = loopFlagCounterexampleRaw from rfl, hmig]
  rfl

/-- The raw `loopWithin` flag value used by the C9 witness: a well-formed
object with one fully populated segment. -/
def loopFlagWitnessRaw : JSVal :=
  .obj [("enabled", .bool true),
        ("segments", .arr [.obj
          [("start", .bool true), ("end", .bool true),
           ("crossfadeMs", .num 500), ("loopCount", .num 2),
           ("skipToNext", .bool true)]])]

/-- The configuration `getLoopConfig` produces for `loopFlagWitnessRaw`. -/
def loopWitnessCfg : LoopConfig where
  enabled := true
  active := true
  startFromBeginning := true
  segments := [{ start := .bool true, end_ := .bool true, crossfadeMs := 500,
                 loopCount := 2, skipToNext := true, startSec := 0, endSec := 0 }]

/-- C9 witness: the amended theorem applied to `loopFlagWitnessRaw`,
whose configuration `getLoopConfig` returns successfully. -/
theorem getLoopConfig_ok_segments_witness :
    getLoopConfig loopFlagWitnessRaw = Except.ok loopWitnessCfg
    ∧ ∀ seg ∈ loopWitnessCfg.segments,
        0 ≤ seg.crossfadeMs ∧ 0 ≤ seg.loopCount ∧ 0 ≤ seg.startSec
        ∧ 0 ≤ seg.endSec ∧ (seg.skipToNext = true ∨ seg.skipToNext = false) := by
  have hdup : jsDuplicate loopFlagWitnessRaw = loopFlagWitnessRaw := by
    simp [jsDuplicate, loopFlagWitnessRaw, List.attach, List.attachWith,
      JSVal.isUndefined]
  have hmig : _migrateLegacyLoopFlags loopFlagWitnessRaw
      = Except.ok loopFlagWitnessRaw := by
    unfold _migrateLegacyLoopFlags
    rw [show (if loopFlagWitnessRaw.isNullish then JSVal.obj []
        else loopFlagWitnessRaw) = loopFlagWitnessRaw from rfl, hdup]
    rfl
  have hok : getLoopConfig loopFlagWitnessRaw = Except.ok loopWitnessCfg := by
    show (_migrateLegacyLoopFlags (if loopFlagWitnessRaw.isNullish
        then JSVal.obj [] else loopFlagWitnessRaw)
      >>= fun migrated =>
        (jsAsArr ((validate migrated loopWithinSchema).getPropD "segments")).mapM
            validateSegmentEntry
          >>= fun segments =>
            pure { enabled := jsAsBool ((validate migrated loopWithinSchema).getPropD "enabled")
                   active := jsAsBool ((validate migrated loopWithinSchema).getPropD "active")
                   startFromBeginning :=
                     jsAsBool ((validate migrated loopWithinSchema).getPropD "startFromBeginning")
                   segments := segments } : Except String LoopConfig)
        = Except.ok loopWitnessCfg
    rw [show (if loopFlagWitnessRaw.isNullish then JSVal.obj []
        else loopFlagWitnessRaw) = loopFlagWitnessRaw from rfl, hmig]
    rfl
  exact ⟨hok, getLoopConfig_ok_segments loopFlagWitnessRaw loopWitnessCfg hok⟩

end SoS
